import Mathlib

/-!
# Shallow embedding of `lib/primitives/claim.js` (Claim: DNSSEC ownership proofs)

Bytes are modelled as `Nat` (values `< 256` in every buffer the code builds)
and buffers as `List Nat`.  The `bufio` reader/writer primitives the class
uses (`readVarint`, `readBytes`, `writeVarBytes`, `sizeVarBytes`) are embedded
below following the Bitcoin-style variable-length integer encoding that
`bufio` implements, including its canonicality checks.

External collaborators that are not part of the excerpt — the blake2b digest,
the `OwnershipProof` codec, covenant type tags and the consensus scale
constant — are modelled at their interface boundary (see `ProofCodec`,
`typesCLAIM`, `WITNESS_SCALE_FACTOR`), as the spec prescribes.
-/

deriving instance DecidableEq for Except

/-- `bufio` `readU8`: one byte, or an out-of-bounds error. Returns the value
and the remaining buffer. -/
def readU8 (b : List Nat) : Except String (Nat × List Nat) :=
  match b with
  | [] => .error "Out of bounds read."
  | x :: r => .ok (x, r)

/-- `bufio` `readU16`: two bytes, little endian. -/
def readU16LE (b : List Nat) : Except String (Nat × List Nat) :=
  match b with
  | x0 :: x1 :: r => .ok (x0 + x1 * 256, r)
  | _ => .error "Out of bounds read."

/-- `bufio` `readU32`: four bytes, little endian. -/
def readU32LE (b : List Nat) : Except String (Nat × List Nat) :=
  match b with
  | x0 :: x1 :: x2 :: x3 :: r =>
    .ok (x0 + x1 * 256 + x2 * 2 ^ 16 + x3 * 2 ^ 24, r)
  | _ => .error "Out of bounds read."

/-- `bufio` `readU64`: eight bytes, little endian. -/
def readU64LE (b : List Nat) : Except String (Nat × List Nat) :=
  match b with
  | x0 :: x1 :: x2 :: x3 :: x4 :: x5 :: x6 :: x7 :: r =>
    .ok (x0 + x1 * 256 + x2 * 2 ^ 16 + x3 * 2 ^ 24 + x4 * 2 ^ 32
      + x5 * 2 ^ 40 + x6 * 2 ^ 48 + x7 * 2 ^ 56, r)
  | _ => .error "Out of bounds read."

/-- `bufio` `readVarint`: Bitcoin-style variable-length integer with
canonicality enforcement (`0xfd` payload must be `≥ 0xfd`, `0xfe` payload
must exceed `0xffff`, `0xff` payload must exceed `0xffffffff`). -/
def readVarint (b : List Nat) : Except String (Nat × List Nat) :=
  match b with
  | [] => .error "Out of bounds read."
  | x :: r =>
    if x = 0xff then
      match readU64LE r with
      | .ok (v, r2) =>
        if v > 0xffffffff then .ok (v, r2) else .error "Non-canonical varint."
      | .error e => .error e
    else if x = 0xfe then
      match readU32LE r with
      | .ok (v, r2) =>
        if v > 0xffff then .ok (v, r2) else .error "Non-canonical varint."
      | .error e => .error e
    else if x = 0xfd then
      match readU16LE r with
      | .ok (v, r2) =>
        if v ≥ 0xfd then .ok (v, r2) else .error "Non-canonical varint."
      | .error e => .error e
    else
      .ok (x, r)

/-- `bufio` `readBytes size`: exactly `size` bytes, or an out-of-bounds
error when fewer remain. -/
def readBytes (size : Nat) (b : List Nat) : Except String (List Nat × List Nat) :=
  if size ≤ b.length then .ok (b.take size, b.drop size)
  else .error "Out of bounds read."

/-- Little-endian bytes of a 32-bit value (`bufio` `writeU32`). -/
def writeU32LE (n : Nat) : List Nat :=
  [n % 256, n / 256 % 256, n / 2 ^ 16 % 256, n / 2 ^ 24 % 256]

/-- Little-endian bytes of a 64-bit value (`bufio` `writeU64`). -/
def writeU64LE (n : Nat) : List Nat :=
  [n % 256, n / 256 % 256, n / 2 ^ 16 % 256, n / 2 ^ 24 % 256,
   n / 2 ^ 32 % 256, n / 2 ^ 40 % 256, n / 2 ^ 48 % 256, n / 2 ^ 56 % 256]

/-- `bufio` `writeVarint`: smallest Bitcoin-style varint encoding. -/
def writeVarint (n : Nat) : List Nat :=
  if n < 0xfd then [n]
  else if n ≤ 0xffff then [0xfd, n % 256, n / 256 % 256]
  else if n ≤ 0xffffffff then 0xfe :: writeU32LE n
  else 0xff :: writeU64LE n

/-- `bufio` `sizeVarint`: byte length of the varint encoding of `n`. -/
def sizeVarint (n : Nat) : Nat :=
  if n < 0xfd then 1
  else if n ≤ 0xffff then 3
  else if n ≤ 0xffffffff then 5
  else 9

/-- `bufio` `sizeVarBytes`: size of a varint length prefix plus the bytes. -/
def sizeVarBytes (b : List Nat) : Nat :=
  sizeVarint b.length + b.length

/-- One lowercase hex digit, as produced by `Buffer.toString('hex')`. -/
def hexChar (n : Nat) : Char :=
  if n < 10 then Char.ofNat (48 + n) else Char.ofNat (87 + n)

/-- `Buffer.toString('hex')`: two lowercase hex digits per byte. -/
def hexStr (b : List Nat) : String :=
  String.mk ((b.map (fun x => [hexChar (x / 16 % 16), hexChar (x % 16)])).flatten)

/-- JavaScript `| 0` applied to a nonnegative number that carries no
fractional part after truncation: ToInt32, i.e. reduction mod `2^32`
interpreted as a signed 32-bit value. -/
def toInt32 (n : Nat) : Int :=
  if n % 2 ^ 32 < 2 ^ 31 then ((n % 2 ^ 32 : Nat) : Int)
  else ((n % 2 ^ 32 : Nat) : Int) - 2 ^ 32

/-- Modelled from the spec: `consensus.WITNESS_SCALE_FACTOR`, the external
consensus constant used by `getVirtualSize`; the spec's worked example
(`weight = 10` gives `virtualSize = 3`) fixes it at 4. -/
def WITNESS_SCALE_FACTOR : Nat := 4

/-- Modelled from the spec: `rules.types.CLAIM`, the covenant type tag for
claim outputs; the tag's numeric value is external to the excerpt and only
its identity matters here. -/
def typesCLAIM : Nat := 1

/-- The structured proof data extracted from an ownership proof, with the
fields `claim.js` reads: `nameHash`, `nameRaw`, address `version`/`hash`,
`value`, `fee`, `weak`, `forked`. -/
structure ProofData where
  nameHash : List Nat
  nameRaw : List Nat
  version : Nat
  hash : List Nat
  value : Int
  fee : Int
  weak : Bool
  forked : Bool
deriving DecidableEq

/-- Modelled from the spec: the interface boundary of the external
`OwnershipProof` codec (`lib/covenants/ownership.js`, not in the excerpt).
`decode` may fail; `empty` is the sentinel `new OwnershipProof()`, which by
the spec carries no proof and therefore yields no data for any network;
`getData` extracts `ProofData` for a network parameter set or signals
absence; `encode` serializes a proof to a blob. -/
structure ProofCodec (P N : Type) where
  decode : List Nat → Except String P
  encode : P → List Nat
  empty : P
  getData : P → N → Option ProofData
  empty_getData : ∀ n : N, getData empty n = none

/-- The `Claim` class state: the blob plus the three nullable cache fields
initialized to `null` by the constructor. -/
structure Claim where
  blob : List Nat
  _hash : Option (List Nat)
  _hhash : Option String
  _data : Option ProofData
deriving DecidableEq

/-- `new Claim()`: empty blob, all caches `null`. -/
def Claim.new : Claim := ⟨[], none, none, none⟩

/-- `Claim.prototype.refresh`: clears all three caches. -/
def Claim.refresh (c : Claim) : Claim :=
  { c with _hash := none, _hhash := none, _data := none }

/-- `Claim.prototype.hash(enc)` with `enc ≠ 'hex'`, for a digest function
`digest` (blake2b is external to the excerpt).  Reads `_hash`; a `Buffer`
is always truthy in JavaScript, so the recompute branch runs exactly when
`_hash` is `null`.  No state is written on this path. -/
def Claim.hashRaw (digest : List Nat → List Nat) (c : Claim) : List Nat :=
  match c._hash with
  | some h => h
  | none => digest c.blob

/-- `Claim.prototype.hash('hex')`: computes the raw digest as `hashRaw`
does, then returns the cached `_hhash` when it is truthy (non-`null` and
not the empty string), otherwise hex-encodes and stores it.  Returns the
string together with the updated state. -/
def Claim.hashHex (digest : List Nat → List Nat) (c : Claim) : String × Claim :=
  let h := match c._hash with
    | some h => h
    | none => digest c.blob
  match c._hhash with
  | some hex =>
    if hex = "" then
      let hex2 := hexStr h
      (hex2, { c with _hhash := some hex2 })
    else (hex, c)
  | none =>
    let hex := hexStr h
    (hex, { c with _hhash := some hex })

/-- `Claim.prototype.toProof`: `OwnershipProof.decode(this.blob)`, errors
propagate. -/
def Claim.toProof {P N : Type} (C : ProofCodec P N) (c : Claim) : Except String P :=
  C.decode c.blob

/-- `Claim.prototype.getProof`: `toProof` with every error caught and
replaced by the sentinel `new OwnershipProof()`. -/
def Claim.getProof {P N : Type} (C : ProofCodec P N) (c : Claim) : P :=
  match C.decode c.blob with
  | .ok p => p
  | .error _ => C.empty

/-- `Claim.prototype.getData(network)`: returns the cached `_data` when
set; otherwise decodes leniently via `getProof` (the source's
`if (!proof)` guard is unreachable because `getProof` always returns an
object), asks the proof for data, and caches only a successful result.
Returns the data (or `none`) together with the updated state. -/
def Claim.getData {P N : Type} (C : ProofCodec P N) (network : N) (c : Claim) :
    Option ProofData × Claim :=
  match c._data with
  | some d => (some d, c)
  | none =>
    let proof := c.getProof C
    match C.getData proof network with
    | none => (none, c)
    | some data => (some data, { c with _data := some data })

/-- `Claim.prototype.getSize`: `bio.sizeVarBytes(this.blob)`. -/
def Claim.getSize (c : Claim) : Nat :=
  sizeVarBytes c.blob

/-- `Claim.prototype.write`: `bw.writeVarBytes(this.blob)`, i.e. the varint
length prefix followed by the blob bytes. -/
def Claim.write (c : Claim) : List Nat :=
  writeVarint c.blob.length ++ c.blob

/-- `Claim.prototype.read(br)`: reads a varint size, throws
`'Invalid claim size.'` when it exceeds 10000 (before any blob byte is
consumed), otherwise reads exactly `size` bytes into `blob`.  The caches
are not touched. -/
def Claim.read (c : Claim) (b : List Nat) : Except String (Claim × List Nat) :=
  match readVarint b with
  | .error e => .error e
  | .ok (size, b1) =>
    if size > 10000 then .error "Invalid claim size."
    else
      match readBytes size b1 with
      | .error e => .error e
      | .ok (bytes, b2) => .ok ({ c with blob := bytes }, b2)

/-- `Claim.prototype.getWeight`: equals `getSize`. -/
def Claim.getWeight (c : Claim) : Nat :=
  c.getSize

/-- `Claim.prototype.getVirtualSize`:
`(this.getWeight() + scale - 1) / scale | 0` with
`scale = WITNESS_SCALE_FACTOR`.  The JavaScript float division by 4
followed by `| 0` truncates toward zero and wraps to a signed 32-bit
value; on nonnegative integers that is `Nat` division followed by
`toInt32`. -/
def Claim.getVirtualSize (c : Claim) : Int :=
  toInt32 ((c.getWeight + WITNESS_SCALE_FACTOR - 1) / WITNESS_SCALE_FACTOR)

/-- `Claim.prototype.getFee(network)`: `assert(data)` then `data.fee`.
The assertion failure is modelled as `none`; success returns the fee and
the state updated by the embedded `getData` call. -/
def Claim.getFee {P N : Type} (C : ProofCodec P N) (network : N) (c : Claim) :
    Option (Int × Claim) :=
  match c.getData C network with
  | (some d, c2) => some (d.fee, c2)
  | (none, _) => none

/-- `new Witness()`: an empty item stack. -/
structure Witness where
  items : List (List Nat)
deriving DecidableEq

/-- An input as `toTX` uses it: only its witness matters here. -/
structure Input where
  witness : Witness
deriving DecidableEq

/-- Modelled from the spec: `new Input()` (lib/primitives/input.js, not in
the excerpt) is a placeholder input with an empty witness. -/
def Input.new : Input := ⟨⟨[]⟩⟩

/-- An address as `toTX` writes it: `version` and `hash`. -/
structure Address where
  version : Nat
  hash : List Nat
deriving DecidableEq

/-- Modelled from the spec: the default (empty-destination) address of a
freshly constructed output. -/
def Address.new : Address := ⟨0, []⟩

/-- A covenant as `toTX` writes it: a type tag and ordered byte items. -/
structure Covenant where
  type : Nat
  items : List (List Nat)
deriving DecidableEq

/-- Modelled from the spec: the default covenant (type `NONE = 0`, no
items) of a freshly constructed output. -/
def Covenant.new : Covenant := ⟨0, []⟩

/-- An output as `toTX` builds it: value, address, covenant. -/
structure Output where
  value : Int
  address : Address
  covenant : Covenant
deriving DecidableEq

/-- Modelled from the spec: `new Output()` is the zero-value,
empty-destination placeholder. -/
def Output.new : Output := ⟨0, Address.new, Covenant.new⟩

/-- A transaction as `toTX` builds it: ordered inputs and outputs.  The
`tx.refresh()` call in the source clears the new transaction's own caches,
which this projection does not carry. -/
structure TX where
  inputs : List Input
  outputs : List Output
deriving DecidableEq

/-- The status byte packed by `toTX`: starts at 0, `|= 1` when `weak`,
`|= 2` when `forked`. -/
def claimFlags (weak forked : Bool) : Nat :=
  let flags := 0
  let flags := if weak then flags ||| 1 else flags
  let flags := if forked then flags ||| 2 else flags
  flags

/-- `Claim.prototype.toTX(network)`: `assert(data)` (modelled as `none`),
then builds the two-input/two-output transaction: placeholder input, input
carrying the blob in its witness; placeholder output, output with the
claim value, address and CLAIM covenant `[nameHash, nameRaw, [flags]]`. -/
def Claim.toTX {P N : Type} (C : ProofCodec P N) (network : N) (c : Claim) :
    Option (TX × Claim) :=
  match c.getData C network with
  | (none, _) => none
  | (some data, c2) =>
    let input : Input := ⟨⟨[c.blob]⟩⟩
    let output : Output :=
      { value := if data.forked then 0 else data.value - data.fee
        address := ⟨data.version, data.hash⟩
        covenant :=
          ⟨typesCLAIM, [data.nameHash, data.nameRaw, [claimFlags data.weak data.forked]]⟩ }
    some (⟨[Input.new, input], [Output.new, output]⟩, c2)

/-- `Claim.prototype.toBlob`. -/
def Claim.toBlob (c : Claim) : List Nat :=
  c.blob

/-- `Claim.prototype.fromBlob`: reassigns `blob`; the caches are not
touched. -/
def Claim.fromBlob (c : Claim) (blob : List Nat) : Claim :=
  { c with blob := blob }

/-- `Claim.fromBlob` (static): a fresh claim wrapping `blob`. -/
def Claim.ofBlob (blob : List Nat) : Claim :=
  Claim.new.fromBlob blob

/-- `Claim.prototype.fromProof`: reassigns `blob` to the proof's encoding;
the caches are not touched. -/
def Claim.fromProof {P N : Type} (C : ProofCodec P N) (c : Claim) (proof : P) : Claim :=
  { c with blob := C.encode proof }

/-- The states a `Claim` instance can be in: those produced from the
constructor by the class's own operations (including cache population and
blob reassignment). -/
inductive Reachable : Claim → Prop where
  | new : Reachable Claim.new
  | refresh {c : Claim} : Reachable c → Reachable c.refresh
  | hashHex {c : Claim} (digest : List Nat → List Nat) :
      Reachable c → Reachable (c.hashHex digest).2
  | getData {c : Claim} {P N : Type} (C : ProofCodec P N) (network : N) :
      Reachable c → Reachable (c.getData C network).2
  | getFee {c c2 : Claim} {P N : Type} (C : ProofCodec P N) (network : N) (f : Int) :
      Reachable c → c.getFee C network = some (f, c2) → Reachable c2
  | toTX {c c2 : Claim} {P N : Type} (C : ProofCodec P N) (network : N) (t : TX) :
      Reachable c → c.toTX C network = some (t, c2) → Reachable c2
  | fromBlob {c : Claim} (b : List Nat) : Reachable c → Reachable (c.fromBlob b)
  | fromProof {c : Claim} {P N : Type} (C : ProofCodec P N) (p : P) :
      Reachable c → Reachable (c.fromProof C p)
  | read {c c2 : Claim} (b rest : List Nat) :
      Reachable c → c.read b = .ok (c2, rest) → Reachable c2

/-! ## Helper lemmas -/

/-- Reading back the smallest varint encoding of `n ≤ 0xffff` recovers `n`
and leaves the rest of the buffer untouched. -/
theorem readVarint_writeVarint (n : Nat) (h : n ≤ 0xffff) (rest : List Nat) :
    readVarint (writeVarint n ++ rest) = .ok (n, rest) := by
  by_cases h1 : n < 0xfd
  · simp only [writeVarint, if_pos h1, List.cons_append, List.nil_append]
    simp [readVarint, show n ≠ 255 by omega, show n ≠ 254 by omega,
      show n ≠ 253 by omega]
  · simp only [writeVarint, if_neg h1, if_pos h, List.cons_append, List.nil_append]
    simp only [readVarint, readU16LE]
    have hv : n % 256 + n / 256 % 256 * 256 = n := by omega
    simp [hv, show n ≥ 0xfd by omega]

/-- The varint writer emits exactly `sizeVarint n` bytes. -/
theorem length_writeVarint (n : Nat) : (writeVarint n).length = sizeVarint n := by
  unfold writeVarint sizeVarint writeU32LE writeU64LE
  split_ifs <;> simp

/-- Reading a buffer's full length yields the buffer and an empty rest. -/
theorem readBytes_self (xs : List Nat) :
    readBytes xs.length xs = .ok (xs, []) := by
  simp [readBytes]

/-- `hashHex` touches only the `_hhash` cache: blob, `_hash` and `_data`
are unchanged in the returned state. -/
theorem hashHex_state (digest : List Nat → List Nat) (c : Claim) :
    ((c.hashHex digest).2).blob = c.blob ∧ ((c.hashHex digest).2)._hash = c._hash ∧
    ((c.hashHex digest).2)._data = c._data := by
  unfold Claim.hashHex
  cases hh : c._hhash with
  | none => simp
  | some hex => by_cases hx : hex = "" <;> simp [hx]

/-- `getData` touches only the `_data` cache: blob, `_hash` and `_hhash`
are unchanged in the returned state. -/
theorem getData_state {P N : Type} (C : ProofCodec P N) (network : N) (c : Claim) :
    ((c.getData C network).2).blob = c.blob ∧
    ((c.getData C network).2)._hash = c._hash ∧
    ((c.getData C network).2)._hhash = c._hhash := by
  unfold Claim.getData
  cases hd : c._data with
  | some d => simp
  | none => cases hg : C.getData (c.getProof C) network <;> simp [hg]

/-- A successful `read` replaces the blob and carries the caches over
unchanged. -/
theorem read_state {c c2 : Claim} {b rest : List Nat}
    (h : c.read b = .ok (c2, rest)) :
    c2._hash = c._hash ∧ c2._hhash = c._hhash ∧ c2._data = c._data := by
  unfold Claim.read at h
  split at h
  · exact absurd h (by simp)
  · split at h
    · exact absurd h (by simp)
    · split at h
      · exact absurd h (by simp)
      · simp only [Except.ok.injEq, Prod.mk.injEq] at h
        obtain ⟨h1, _⟩ := h
        subst h1
        exact ⟨rfl, rfl, rfl⟩

/-- A successful `getFee` returns the state produced by its embedded
`getData` call. -/
theorem getFee_state {P N : Type} {C : ProofCodec P N} {network : N}
    {c c2 : Claim} {f : Int} (h : c.getFee C network = some (f, c2)) :
    c2 = (c.getData C network).2 := by
  unfold Claim.getFee at h
  split at h
  next d c3 heq =>
    simp only [Option.some.injEq, Prod.mk.injEq] at h
    rw [← h.2, heq]
  next => exact absurd h (by simp)

/-- A successful `toTX` returns the state produced by its embedded
`getData` call. -/
theorem toTX_state {P N : Type} {C : ProofCodec P N} {network : N}
    {c c2 : Claim} {t : TX} (h : c.toTX C network = some (t, c2)) :
    c2 = (c.getData C network).2 := by
  unfold Claim.toTX at h
  split at h
  next => exact absurd h (by simp)
  next data c3 heq =>
    simp only [Option.some.injEq, Prod.mk.injEq] at h
    rw [← h.2, heq]

/-- Core invariant: no operation of the class ever populates the binary
hash cache, so every reachable state has `_hash = null`. -/
theorem reachable_hash_none {c : Claim} (h : Reachable c) : c._hash = none := by
  induction h with
  | new => rfl
  | refresh _ _ => rfl
  | hashHex digest _ ih =>
    rw [(hashHex_state digest _).2.1]; exact ih
  | getData C network _ ih =>
    rw [(getData_state C network _).2.1]; exact ih
  | getFee C network f _ heq ih =>
    rw [getFee_state heq, (getData_state C network _).2.1]; exact ih
  | toTX C network t _ heq ih =>
    rw [toTX_state heq, (getData_state C network _).2.1]; exact ih
  | fromBlob b _ ih => exact ih
  | fromProof C p _ ih => exact ih
  | read b rest _ heq ih =>
    rw [(read_state heq).1]; exact ih

/-- `toInt32` is the identity below `2^31`. -/
theorem toInt32_of_lt {n : Nat} (h : n < 2 ^ 31) : toInt32 n = n := by
  unfold toInt32
  rw [Nat.mod_eq_of_lt (by omega), if_pos h]

/-- A concrete digest function used to instantiate witnesses and
counterexamples (any function of the blob alone qualifies at the spec's
interface boundary). -/
def cexDigest : List Nat → List Nat := fun b => b

/-- Concrete proof data used to instantiate witnesses. -/
def toyData : ProofData :=
  ⟨[170], [3, 110], 0, [17], 1000, 100, true, false⟩

/-- A concrete instance of the proof-codec interface used to instantiate
witnesses: the empty blob fails to decode, anything else decodes to a
proof carrying `toyData`. -/
def toyCodec : ProofCodec (Option ProofData) Unit where
  decode b := if b = [] then .error "bad proof" else .ok (some toyData)
  encode _ := [9]
  empty := none
  getData p _ := p
  empty_getData _ := rfl

/-! ## Claims -/

/-- C2: `read` first parses a varint length prefix; a declared length above
10,000 fails with the oversize error `'Invalid claim size.'` before any
blob byte is consumed (the error is raised before the assignment to
`blob`, so the claim object is unchanged); a declared length of at most
10,000 reads exactly that many bytes into `blob` — the proof structure is
never parsed on this path. -/
theorem C2_read_oversize_guard (c : Claim) (b b1 : List Nat) (size : Nat)
    (hv : readVarint b = .ok (size, b1)) :
    (size > 10000 → c.read b = .error "Invalid claim size.") ∧
    (size ≤ 10000 → size ≤ b1.length →
      c.read b = .ok ({ c with blob := b1.take size }, b1.drop size)) := by
  constructor
  · intro hgt
    unfold Claim.read
    rw [hv]
    simp [hgt]
  · intro hle hlen
    unfold Claim.read
    rw [hv]
    simp [readBytes, show ¬ size > 10000 by omega, hlen]

/-- C2 witness: length prefix 10001 (bytes `fd 11 27`) is rejected with
the oversize error; length prefix 3 reads exactly three bytes. -/
theorem C2_read_oversize_guard_witness :
    ((10001 > 10000) ∧ Claim.new.read [253, 17, 39] = .error "Invalid claim size.") ∧
    ((3 ≤ 10000) ∧ (3 ≤ [7, 8, 9].length) ∧
      Claim.new.read [3, 7, 8, 9] =
        .ok ({ Claim.new with blob := [7, 8, 9].take 3 }, [7, 8, 9].drop 3)) :=
  ⟨⟨by decide,
    (C2_read_oversize_guard Claim.new [253, 17, 39] [] 10001 (by decide)).1
      (by decide)⟩,
   ⟨by decide, by decide,
    (C2_read_oversize_guard Claim.new [3, 7, 8, 9] [7, 8, 9] 3 (by decide)).2
      (by decide) (by decide)⟩⟩

/-- C3: for a blob of at most 10,000 bytes, decoding the encoding (varint
length prefix followed by the blob bytes) recovers a claim with an
identical blob and consumes the whole encoding, and `getSize` equals the
length of the encoding (varint-prefix size plus blob length). -/
theorem C3_encode_decode_roundtrip (c : Claim) (h : c.blob.length ≤ 10000) :
    Claim.new.read c.write = .ok (Claim.ofBlob c.blob, []) ∧
    c.getSize = c.write.length := by
  constructor
  · unfold Claim.read Claim.write
    rw [readVarint_writeVarint c.blob.length (by omega) c.blob]
    simp only [show ¬ c.blob.length > 10000 by omega, if_false, gt_iff_lt,
      Nat.not_lt.mpr h, readBytes_self]
    rfl
  · unfold Claim.getSize Claim.write sizeVarBytes
    simp [length_writeVarint]

/-- C3 witness: the two-byte blob `[1, 2]` round-trips and its size is the
length of its encoding. -/
theorem C3_encode_decode_roundtrip_witness :
    ((Claim.ofBlob [1, 2]).blob.length ≤ 10000) ∧
    Claim.new.read (Claim.ofBlob [1, 2]).write = .ok (Claim.ofBlob [1, 2], []) ∧
    (Claim.ofBlob [1, 2]).getSize = (Claim.ofBlob [1, 2]).write.length := by
  refine ⟨by decide, ?_, ?_⟩
  · have h := (C3_encode_decode_roundtrip (Claim.ofBlob [1, 2]) (by decide)).1
    simpa using h
  · exact (C3_encode_decode_roundtrip (Claim.ofBlob [1, 2]) (by decide)).2

/-- C7: `getWeight` equals `getSize`, and for every blob a JavaScript
buffer can hold (length at most `2^32`), `getVirtualSize` is the integer
ceiling of the weight divided by `WITNESS_SCALE_FACTOR`. -/
theorem C7_weight_and_virtual_size (c : Claim) (h : c.blob.length ≤ 2 ^ 32) :
    c.getWeight = c.getSize ∧
    c.getVirtualSize =
      ((c.getWeight / WITNESS_SCALE_FACTOR +
        (if c.getWeight % WITNESS_SCALE_FACTOR = 0 then 0 else 1) : Nat) : Int) := by
  refine ⟨rfl, ?_⟩
  have hw : c.getWeight ≤ 2 ^ 32 + 9 := by
    unfold Claim.getWeight Claim.getSize sizeVarBytes sizeVarint
    split_ifs <;> omega
  unfold Claim.getVirtualSize WITNESS_SCALE_FACTOR
  rw [toInt32_of_lt (by omega)]
  congr 1
  by_cases h4 : c.getWeight % 4 = 0
  · rw [if_pos h4]; omega
  · rw [if_neg h4]; omega

/-- C7 witness: a 9-byte blob has size and weight 10, and virtual size
`ceil(10 / 4) = 3`, matching the spec's worked example. -/
theorem C7_weight_and_virtual_size_witness :
    ((Claim.ofBlob [0, 0, 0, 0, 0, 0, 0, 0, 0]).blob.length ≤ 2 ^ 32) ∧
    (Claim.ofBlob [0, 0, 0, 0, 0, 0, 0, 0, 0]).getWeight =
      (Claim.ofBlob [0, 0, 0, 0, 0, 0, 0, 0, 0]).getSize ∧
    (Claim.ofBlob [0, 0, 0, 0, 0, 0, 0, 0, 0]).getVirtualSize = 3 := by
  refine ⟨by decide,
    (C7_weight_and_virtual_size (Claim.ofBlob [0, 0, 0, 0, 0, 0, 0, 0, 0])
      (by decide)).1, ?_⟩
  have h := (C7_weight_and_virtual_size (Claim.ofBlob [0, 0, 0, 0, 0, 0, 0, 0, 0])
    (by decide)).2
  rw [h]
  decide

/-- C5: when proof decoding of the blob fails, the lenient `getProof`
returns the sentinel empty proof and raises no error, while the strict
`toProof` propagates the decode error; when decoding succeeds, both
return the decoded proof.  (The proof codec itself is external to the
excerpt and is quantified at its spec-level interface.) -/
theorem C5_lenient_vs_strict {P N : Type} (C : ProofCodec P N) (c : Claim) :
    (∀ e, C.decode c.blob = .error e →
      c.getProof C = C.empty ∧ c.toProof C = .error e) ∧
    (∀ p, C.decode c.blob = .ok p →
      c.getProof C = p ∧ c.toProof C = .ok p) := by
  constructor
  · intro e h
    exact ⟨by simp [Claim.getProof, h], by simp [Claim.toProof, h]⟩
  · intro p h
    exact ⟨by simp [Claim.getProof, h], by simp [Claim.toProof, h]⟩

/-- C5 witness: under `toyCodec` the empty blob fails to decode —
`getProof` yields the sentinel, `toProof` the error; a nonempty blob
decodes — both accessors agree on the proof. -/
theorem C5_lenient_vs_strict_witness :
    ((Claim.ofBlob []).getProof toyCodec = toyCodec.empty ∧
      (Claim.ofBlob []).toProof toyCodec = .error "bad proof") ∧
    ((Claim.ofBlob [5]).getProof toyCodec = some toyData ∧
      (Claim.ofBlob [5]).toProof toyCodec = .ok (some toyData)) :=
  ⟨(C5_lenient_vs_strict toyCodec (Claim.ofBlob [])).1 "bad proof" (by decide),
   (C5_lenient_vs_strict toyCodec (Claim.ofBlob [5])).2 (some toyData) (by decide)⟩

/-- C6: `getFee` hits the `assert(data)` failure exactly when `getData`
returns absent data, and otherwise returns precisely the `fee` field of
the proof data (alongside the state updated by the `getData` call). -/
theorem C6_getFee_assert (P N : Type) (C : ProofCodec P N) (network : N) (c : Claim) :
    ((c.getData C network).1 = none → c.getFee C network = none) ∧
    (∀ d : ProofData, (c.getData C network).1 = some d →
      c.getFee C network = some (d.fee, (c.getData C network).2)) := by
  unfold Claim.getFee
  rcases hd : c.getData C network with ⟨o, c2⟩
  cases o with
  | none => exact ⟨fun _ => rfl, fun d hdd => by simp at hdd⟩
  | some d0 =>
    refine ⟨fun hcontra => by simp at hcontra, fun d hdd => ?_⟩
    simp only [Option.some.injEq] at hdd
    subst hdd
    rfl

/-- C6 witness: with `toyCodec`, the undecodable empty blob makes
`getFee` fail the assertion; the decodable blob `[5]` yields exactly
`toyData.fee = 100`. -/
theorem C6_getFee_assert_witness :
    (((Claim.ofBlob []).getData toyCodec ()).1 = none ∧
      (Claim.ofBlob []).getFee toyCodec () = none) ∧
    (((Claim.ofBlob [5]).getData toyCodec ()).1 = some toyData ∧
      (Claim.ofBlob [5]).getFee toyCodec () =
        some (toyData.fee, ((Claim.ofBlob [5]).getData toyCodec ()).2)) :=
  ⟨⟨by decide, (C6_getFee_assert _ _ toyCodec () (Claim.ofBlob [])).1 (by decide)⟩,
   ⟨by decide, (C6_getFee_assert _ _ toyCodec () (Claim.ofBlob [5])).2 toyData (by decide)⟩⟩

/-- C10: `getData` caches only successful extractions.  When extraction
fails it returns absent data and leaves the state (hence the cache)
untouched, so a later call re-attempts the decode; once it succeeds, a
subsequent call — with any network argument — returns the same cached
data without changing the state again. -/
theorem C10_getData_caching (P N : Type) (C : ProofCodec P N) (n1 n2 : N) (c : Claim) :
    ((c.getData C n1).1 = none → (c.getData C n1).2 = c) ∧
    (∀ d : ProofData, (c.getData C n1).1 = some d →
      ((c.getData C n1).2).getData C n2 = (some d, (c.getData C n1).2)) := by
  rcases hd0 : c._data with _ | d0
  · rcases hg : C.getData (c.getProof C) n1 with _ | data
    · have h1 : c.getData C n1 = (none, c) := by
        simp [Claim.getData, hd0, hg]
      rw [h1]
      exact ⟨fun _ => rfl, fun d hdd => by simp at hdd⟩
    · have h1 : c.getData C n1 = (some data, { c with _data := some data }) := by
        simp [Claim.getData, hd0, hg]
      rw [h1]
      refine ⟨fun hcontra => by simp at hcontra, fun d hdd => ?_⟩
      simp only [Option.some.injEq] at hdd
      subst hdd
      simp [Claim.getData]
  · have h1 : c.getData C n1 = (some d0, c) := by
      simp [Claim.getData, hd0]
    rw [h1]
    refine ⟨fun hcontra => by simp at hcontra, fun d hdd => ?_⟩
    simp only [Option.some.injEq] at hdd
    subst hdd
    simp [Claim.getData, hd0]

/-- C10 witness: with `toyCodec`, extraction on the empty blob fails and
leaves the claim unchanged; on blob `[5]` it succeeds and a second call
returns the same cached data with no further state change. -/
theorem C10_getData_caching_witness :
    (((Claim.ofBlob []).getData toyCodec ()).1 = none ∧
      ((Claim.ofBlob []).getData toyCodec ()).2 = Claim.ofBlob []) ∧
    (((Claim.ofBlob [5]).getData toyCodec ()).1 = some toyData ∧
      (((Claim.ofBlob [5]).getData toyCodec ()).2).getData toyCodec () =
        (some toyData, ((Claim.ofBlob [5]).getData toyCodec ()).2)) :=
  ⟨⟨by decide, (C10_getData_caching _ _ toyCodec () () (Claim.ofBlob [])).1 (by decide)⟩,
   ⟨by decide, (C10_getData_caching _ _ toyCodec () () (Claim.ofBlob [5])).2 toyData (by decide)⟩⟩

/-- C4: with present proof data, `toTX` builds exactly two inputs — the
placeholder first, then the input whose witness carries the raw blob —
and exactly two outputs — the placeholder first, then the output whose
value is 0 when `forked` and `value - fee` otherwise, whose address is
the proof data's version and hash, and whose covenant is of CLAIM type
with items `nameHash`, `nameRaw`, and a status byte whose bit 0 is set
iff `weak` and bit 1 is set iff `forked`. -/
theorem C4_toTX_shape {P N : Type} (C : ProofCodec P N) (network : N) (c : Claim)
    (data : ProofData) (c2 : Claim) (h : c.getData C network = (some data, c2)) :
    c.toTX C network = some
      (⟨[Input.new, ⟨⟨[c.blob]⟩⟩],
        [Output.new,
          { value := if data.forked then 0 else data.value - data.fee
            address := ⟨data.version, data.hash⟩
            covenant := ⟨typesCLAIM,
              [data.nameHash, data.nameRaw, [claimFlags data.weak data.forked]]⟩ }]⟩,
        c2) ∧
    (claimFlags data.weak data.forked).testBit 0 = data.weak ∧
    (claimFlags data.weak data.forked).testBit 1 = data.forked := by
  refine ⟨by simp [Claim.toTX, h], ?_, ?_⟩
  · cases hw : data.weak <;> cases hf : data.forked <;> decide
  · cases hw : data.weak <;> cases hf : data.forked <;> decide

/-- C4 witness: under `toyCodec` (proof data with `value = 1000`,
`fee = 100`, `weak = true`, `forked = false`) the materialized
transaction has the placeholder/real input pair, the placeholder/real
output pair with value 900, and covenant items
`[nameHash, nameRaw, [0x01]]`. -/
theorem C4_toTX_shape_witness :
    (Claim.ofBlob [5]).getData toyCodec () =
      (some toyData, ((Claim.ofBlob [5]).getData toyCodec ()).2) ∧
    (Claim.ofBlob [5]).toTX toyCodec () = some
      (⟨[Input.new, ⟨⟨[(Claim.ofBlob [5]).blob]⟩⟩],
        [Output.new,
          { value := if toyData.forked then 0 else toyData.value - toyData.fee
            address := ⟨toyData.version, toyData.hash⟩
            covenant := ⟨typesCLAIM,
              [toyData.nameHash, toyData.nameRaw,
                [claimFlags toyData.weak toyData.forked]]⟩ }]⟩,
        ((Claim.ofBlob [5]).getData toyCodec ()).2) ∧
    (claimFlags toyData.weak toyData.forked).testBit 0 = toyData.weak ∧
    (claimFlags toyData.weak toyData.forked).testBit 1 = toyData.forked := by
  refine ⟨by decide, ?_⟩
  exact C4_toTX_shape toyCodec () (Claim.ofBlob [5]) toyData
    (((Claim.ofBlob [5]).getData toyCodec ()).2) (by decide)

/-- A reachable claim state with a populated hex-hash cache: built from
blob `[0]` after one `hash('hex')` call (which stores `"00"` under
`cexDigest`). -/
def cexClaim0 : Claim := ((Claim.ofBlob [0]).hashHex cexDigest).2

/-- C1 counterexample: reassigning the blob via `fromBlob` does NOT clear
the hex-hash cache — on the state with cached hex `"00"` for blob `[0]`,
after `fromBlob [1]` the next `hash('hex')` still returns the value
cached from the old blob instead of the new blob's hex digest. -/
theorem C1_cache_clear_counterexample :
    ((cexClaim0.fromBlob [1]).hashHex cexDigest).1 ≠
      hexStr (cexDigest ((cexClaim0.fromBlob [1]).blob)) := by
  decide

/-- C1 amended: `refresh` clears the three caches together, but blob
reassignment via `fromBlob`, `fromProof` or `read` clears none of them —
the hex-hash cache and the proof-data cache survive reassignment (so
`hash('hex')` and `getData` may serve values cached from the old blob),
while `hash()` without encoding always reflects the new blob because the
binary cache field is never populated by any class operation. -/
theorem C1_amended_reassignment_keeps_caches (c : Claim) (hc : Reachable c)
    (b : List Nat) {P N : Type} (C : ProofCodec P N) (p : P)
    (digest : List Nat → List Nat) {c2 : Claim} {bytes rest : List Nat}
    (hr : c.read bytes = .ok (c2, rest)) :
    (c.refresh._hash = none ∧ c.refresh._hhash = none ∧ c.refresh._data = none) ∧
    ((c.fromBlob b)._hhash = c._hhash ∧ (c.fromBlob b)._data = c._data) ∧
    ((c.fromProof C p)._hhash = c._hhash ∧ (c.fromProof C p)._data = c._data) ∧
    (c2._hhash = c._hhash ∧ c2._data = c._data) ∧
    (c.fromBlob b).hashRaw digest = digest b := by
  refine ⟨⟨rfl, rfl, rfl⟩, ⟨rfl, rfl⟩, ⟨rfl, rfl⟩,
    ⟨(read_state hr).2.1, (read_state hr).2.2⟩, ?_⟩
  have e := reachable_hash_none hc
  simp [Claim.hashRaw, Claim.fromBlob, e]

/-- C1 amended witness: on the reachable state with a cached hex hash,
`fromBlob` keeps the cache and a successful `read` keeps it too, while
the binary hash of the reassigned claim is the new blob's digest. -/
theorem C1_amended_reassignment_keeps_caches_witness :
    ((cexClaim0.fromBlob [7])._hhash = cexClaim0._hhash ∧
      (cexClaim0.fromBlob [7])._data = cexClaim0._data) ∧
    (cexClaim0.fromBlob [7]).hashRaw cexDigest = cexDigest [7] :=
  ⟨(C1_amended_reassignment_keeps_caches cexClaim0
      (Reachable.hashHex cexDigest (Reachable.fromBlob [0] Reachable.new))
      [7] toyCodec (some toyData) cexDigest
      (show cexClaim0.read [1, 42] =
        .ok ({ cexClaim0 with blob := [42] }, []) by decide)).2.1,
   (C1_amended_reassignment_keeps_caches cexClaim0
      (Reachable.hashHex cexDigest (Reachable.fromBlob [0] Reachable.new))
      [7] toyCodec (some toyData) cexDigest
      (show cexClaim0.read [1, 42] =
        .ok ({ cexClaim0 with blob := [42] }, []) by decide)).2.2.2.2⟩

/-- C8 counterexample: two reachable claims holding byte-identical blobs
(`[1]`) whose `hash('hex')` results differ — one carries a hex cache
populated under its earlier blob `[0]`, so the claim as stated (equal
blobs imply equal hex strings) is false. -/
theorem C8_hash_purity_counterexample :
    (cexClaim0.fromBlob [1]).blob = (Claim.ofBlob [1]).blob ∧
    ((cexClaim0.fromBlob [1]).hashHex cexDigest).1 ≠
      ((Claim.ofBlob [1]).hashHex cexDigest).1 :=
  ⟨rfl, by decide⟩

/-- C8 amended: the binary `hash()` is a pure function of the blob on all
reachable states — equal blobs give equal binary digests — and
`hash('hex')` agrees on equal blobs provided neither claim carries a hex
cache populated under an earlier blob (here: both hex caches unset). -/
theorem C8_amended_hash_purity (digest : List Nat → List Nat) (c1 c2 : Claim)
    (h1 : Reachable c1) (h2 : Reachable c2) (hb : c1.blob = c2.blob) :
    c1.hashRaw digest = c2.hashRaw digest ∧
    (c1._hhash = none → c2._hhash = none →
      (c1.hashHex digest).1 = (c2.hashHex digest).1) := by
  have e1 := reachable_hash_none h1
  have e2 := reachable_hash_none h2
  constructor
  · simp [Claim.hashRaw, e1, e2, hb]
  · intro hh1 hh2
    simp [Claim.hashHex, e1, e2, hh1, hh2, hb]

/-- C8 amended witness: two claims built on blob `[7]` by different
operation sequences, both with unset hex caches, agree on both the binary
and the hex hash. -/
theorem C8_amended_hash_purity_witness :
    (Claim.ofBlob [7]).hashRaw cexDigest =
      ((Claim.ofBlob [3]).fromBlob [7]).hashRaw cexDigest ∧
    ((Claim.ofBlob [7]).hashHex cexDigest).1 =
      (((Claim.ofBlob [3]).fromBlob [7]).hashHex cexDigest).1 :=
  ⟨(C8_amended_hash_purity cexDigest (Claim.ofBlob [7]) ((Claim.ofBlob [3]).fromBlob [7])
      (Reachable.fromBlob [7] Reachable.new)
      (Reachable.fromBlob [7] (Reachable.fromBlob [3] Reachable.new)) rfl).1,
   (C8_amended_hash_purity cexDigest (Claim.ofBlob [7]) ((Claim.ofBlob [3]).fromBlob [7])
      (Reachable.fromBlob [7] Reachable.new)
      (Reachable.fromBlob [7] (Reachable.fromBlob [3] Reachable.new)) rfl).2 rfl rfl⟩

/-- C9: on every reachable state the binary hash cache is `null` — no
class operation (in particular neither form of `hash()`) ever populates
it — so `hash()` without the hex encoding recomputes and returns the
digest of the blob as it is at call time, and can never be stale. -/
theorem C9_binary_hash_never_cached (digest : List Nat → List Nat) (c : Claim)
    (h : Reachable c) :
    c._hash = none ∧ c.hashRaw digest = digest c.blob ∧
    ((c.hashHex digest).2)._hash = none := by
  have e := reachable_hash_none h
  refine ⟨e, by simp [Claim.hashRaw, e], ?_⟩
  rw [(hashHex_state digest c).2.1]
  exact e

/-- C9 witness: on the reachable state whose hex cache is populated (and
stale-able), the binary hash cache is still `null` and `hash()` returns
the digest of the current blob. -/
theorem C9_binary_hash_never_cached_witness :
    cexClaim0._hash = none ∧
    cexClaim0.hashRaw cexDigest = cexDigest cexClaim0.blob ∧
    ((cexClaim0.hashHex cexDigest).2)._hash = none :=
  C9_binary_hash_never_cached cexDigest cexClaim0
    (Reachable.hashHex cexDigest (Reachable.fromBlob [0] Reachable.new))
